import Mathlib

/-!
Shallow embedding of the freenet solver (`solver.py`) and verification of its
specification.  Pure Python functions become Lean functions; mutation of the
grid becomes explicit state passing; the fallible spots (dictionary lookup,
`random.choice` on an empty list, indexing an empty description) return
`Option`.  The global random source is modelled by an explicit `pick`
function handed to the collapse engine: `random.choice` returns an element of
a non-empty list and raises on an empty one, so a faithful `pick` satisfies
`pick l = some r → r ∈ l` and `pick [] = none`; `List.head?` is one concrete
such function, used to evaluate the development on concrete grids.
-/

set_option maxHeartbeats 1000000

/-- `Position`: a location in two dimensional space (solver.py lines 17-41). -/
structure Position where
  x : Int
  y : Int
deriving DecidableEq

/-- `Direction`: a displacement in 2D (solver.py lines 44-80). -/
structure Direction where
  x : Int
  y : Int
deriving DecidableEq

/-- `Position.move` (solver.py line 40). -/
def Position.move (p : Position) (d : Direction) : Position :=
  { x := p.x + d.x, y := p.y + d.y }

/-- `Direction.opposite` (solver.py line 73). -/
def Direction.opposite (d : Direction) : Direction :=
  { x := d.x * -1, y := d.y * -1 }

/-- The recursion of `Direction.rotate` after the initial `amount % 4`:
each step maps `(x, y)` to `(-y, x)` (solver.py line 80). -/
def Direction.rotateAux : Direction → Nat → Direction
  | d, 0 => d
  | d, Nat.succ n => Direction.rotateAux { x := -d.y, y := d.x } n

/-- `Direction.rotate` (solver.py lines 76-80): reduce the amount mod 4,
then rotate by 90 degrees that many times. -/
def Direction.rotate (d : Direction) (amount : Nat) : Direction :=
  d.rotateAux (amount % 4)

/-- `Shape` (solver.py lines 83-94): a connection set plus display glyphs. -/
structure Shape where
  connections : Finset Direction
  prints_as : List String
deriving DecidableEq

/-- `Shape.rotate` (solver.py lines 93-94). -/
def Shape.rotate (s : Shape) (rotation : Nat) : Finset Direction :=
  s.connections.image (fun connection => connection.rotate rotation)

/-- `Piece` (solver.py lines 97-148): shape, rotation, position, the cached
connection set and the remaining candidate rotations. -/
structure Piece where
  shape : Shape
  rotation : Nat
  position : Position
  connections : Finset Direction
  possible_rotations : List Nat
deriving DecidableEq

/-- `Piece.set_rotation` (solver.py lines 117-119). -/
def Piece.set_rotation (p : Piece) (rotation : Nat) : Piece :=
  { p with rotation := rotation % 4, connections := p.shape.rotate (rotation % 4) }

/-- `Piece.canconnect` (solver.py lines 121-127). -/
def Piece.canconnect (p : Piece) (direction : Direction) : Bool :=
  if p.connections.card = 0 then false
  else p.possible_rotations.any (fun rotation => decide (direction ∈ p.shape.rotate rotation))

/-- `Piece.mustconnect` (solver.py lines 129-137). -/
def Piece.mustconnect (p : Piece) (direction : Direction) : Bool :=
  p.possible_rotations.all (fun rotation => decide (direction ∈ p.shape.rotate rotation))

/-- `Piece.rotational_symmetry` (solver.py lines 139-148): walk the current
candidate rotations in order, keeping a rotation only when its connection set
has not been produced before. -/
def Piece.rotational_symmetry (p : Piece) : Piece :=
  { p with possible_rotations :=
      (p.possible_rotations.foldl
        (fun acc rotation =>
          if p.shape.rotate rotation ∈ acc.1 then acc
          else (acc.1 ++ [p.shape.rotate rotation], acc.2 ++ [rotation]))
        ([], [])).2 }

/-- `Piece.__init__` (solver.py lines 103-109): cache the canonical
connections, start from all four rotations and deduplicate by symmetry. -/
def mkPiece (shape : Shape) (position : Position) (rotation : Nat) : Piece :=
  Piece.rotational_symmetry
    { shape := shape, rotation := rotation, position := position,
      connections := shape.connections, possible_rotations := [0, 1, 2, 3] }

/-- `LEFT` (solver.py line 221). -/
def LEFT : Direction := { x := -1, y := 0 }

/-- `UP` (solver.py line 222). -/
def UP : Direction := LEFT.rotate 1

/-- `RIGHT` (solver.py line 223). -/
def RIGHT : Direction := LEFT.rotate 2

/-- `DOWN` (solver.py line 224). -/
def DOWN : Direction := LEFT.rotate 3

/-- `DIRECTIONS` (solver.py lines 226-231). -/
def DIRECTIONS : List Direction := [LEFT, UP, RIGHT, DOWN]

/-- The "Corner" entry of `SHAPES` (solver.py lines 234-242). -/
def CornerShape : Shape :=
  { connections := {LEFT, UP}, prints_as := ["┘", "└", "┌", "┐"] }

/-- The "Straight" entry of `SHAPES` (solver.py lines 243-251). -/
def StraightShape : Shape :=
  { connections := {LEFT, RIGHT}, prints_as := ["─", "│", "─", "│"] }

/-- The "Tee" entry of `SHAPES` (solver.py lines 252-260). -/
def TeeShape : Shape :=
  { connections := {LEFT, UP, RIGHT}, prints_as := ["┴", "├", "┬", "┤"] }

/-- The "End" entry of `SHAPES` (solver.py lines 261-269). -/
def EndShape : Shape :=
  { connections := {LEFT}, prints_as := ["╴", "╵", "╶", "╷"] }

/-- The "Edge" entry of `SHAPES` (solver.py line 270): the boundary sentinel. -/
def EdgeShape : Shape :=
  { connections := ∅, prints_as := ["", "", "", ""] }

/-- The `SHAPES` dictionary (solver.py lines 233-271); a missing key is the
`KeyError` of a Python dictionary lookup, modelled as `none`. -/
def SHAPES (name : String) : Option Shape :=
  if name = "Corner" then some CornerShape
  else if name = "Straight" then some StraightShape
  else if name = "Tee" then some TeeShape
  else if name = "End" then some EndShape
  else if name = "Edge" then some EdgeShape
  else none

/-- `Grid` (solver.py lines 151-163): the owned 2D array of pieces and the
bounds captured at construction. -/
structure Grid where
  grid : List (List Piece)
  x_max : Nat
  y_max : Nat
deriving DecidableEq

/-- One row of `Grid.__init__`'s nested comprehension (solver.py line 159):
build the pieces of a row, threading the x index; an unknown shape name makes
the whole construction fail. -/
def initRow (y : Nat) : Nat → List String → Option (List Piece)
  | _, [] => some []
  | x, cell :: rest =>
    match SHAPES cell, initRow y (x + 1) rest with
    | some s, some ps => some (mkPiece s { x := (x : Int), y := (y : Int) } 0 :: ps)
    | _, _ => none

/-- The outer comprehension of `Grid.__init__` (solver.py lines 158-161). -/
def initRows : Nat → List (List String) → Option (List (List Piece))
  | _, [] => some []
  | y, row :: rest =>
    match initRow y 0 row, initRows (y + 1) rest with
    | some ps, some pss => some (ps :: pss)
    | _, _ => none

/-- `Grid.__init__` (solver.py lines 155-163).  The comments in the source
announce a rectangularity test, but no validation is performed: the only
failure modes are an unknown shape name (`KeyError`) and an empty description
(`grid[0]` raising `IndexError`, modelled by `head?`). -/
def gridInit (description : List (List String)) : Option Grid :=
  match initRows 0 description with
  | none => none
  | some rows =>
    match rows.head? with
    | none => none
    | some row0 => some { grid := rows, x_max := row0.length, y_max := rows.length }

/-- Default piece used by the total list indexing of the embedding; the
guarded places where it could surface never do in the source's own uses. -/
def dummyPiece : Piece := mkPiece EdgeShape { x := 0, y := 0 } 0

/-- `Grid.ingrid` (solver.py lines 165-168). -/
def Grid.ingrid (g : Grid) (position : Position) : Bool :=
  decide (0 ≤ position.x ∧ position.x < (g.x_max : Int) ∧
    0 ≤ position.y ∧ position.y < (g.y_max : Int))

/-- `Grid.piece` (solver.py lines 170-173): the owned piece when in bounds,
otherwise a freshly constructed sentinel piece at that position. -/
def Grid.piece (g : Grid) (position : Position) : Piece :=
  if g.ingrid position then (g.grid.getD position.y.toNat []).getD position.x.toNat dummyPiece
  else mkPiece EdgeShape position 0

/-- `Grid.permutations` (solver.py lines 180-185): the product, over the
row-major flattening of the grid, of the candidate-domain sizes. -/
def Grid.permutations (g : Grid) : Nat :=
  g.grid.flatten.foldl (fun a e => a * e.possible_rotations.length) 1

/-- `Grid.neighbours` (solver.py lines 187-191). -/
def Grid.neighbours (g : Grid) (position : Position) : List (Direction × Piece) :=
  DIRECTIONS.map (fun direction => (direction, g.piece (position.move direction)))

/-- The `valid_directions` accumulation of `Grid.collapse`
(solver.py lines 196-203). -/
def Grid.validDirections (g : Grid) (position : Position) : Finset Direction :=
  (g.neighbours position).foldl
    (fun s dn => if dn.2.canconnect dn.1.opposite then insert dn.1 s else s) ∅

/-- The `mandatory_directions` accumulation of `Grid.collapse`
(solver.py lines 197-206). -/
def Grid.mandatoryDirections (g : Grid) (position : Position) : Finset Direction :=
  (g.neighbours position).foldl
    (fun s dn => if dn.2.mustconnect dn.1.opposite then insert dn.1 s else s) ∅

/-- The `valid_rotations` narrowing of `Grid.collapse`
(solver.py lines 207-215). -/
def Grid.narrow (g : Grid) (focus : Piece) : List Nat :=
  focus.possible_rotations.filter
    (fun rotation =>
      decide (focus.shape.rotate rotation ⊆ g.validDirections focus.position) &&
      decide (g.mandatoryDirections focus.position ⊆ focus.shape.rotate rotation))

/-- `Grid.collapse` on the focus piece itself (solver.py lines 193-218):
store the narrowed domain, then commit to a drawn rotation; `none` models the
`IndexError` `random.choice` raises on an empty narrowed domain. -/
def Grid.collapsePiece (g : Grid) (pick : List Nat → Option Nat) (focus : Piece) : Option Piece :=
  (pick (g.narrow focus)).map
    (fun r => Piece.set_rotation { focus with possible_rotations := g.narrow focus } r)

/-- The owned piece at row `y`, column `x`. -/
def Grid.pieceIdx (g : Grid) (y x : Nat) : Piece :=
  (g.grid.getD y []).getD x dummyPiece

/-- `Grid.collapse` of the cell at row `y`, column `x`: in the source the
focus is mutated in place, here the grid is rebuilt with the updated cell. -/
def Grid.collapseIdx (g : Grid) (pick : List Nat → Option Nat) (y x : Nat) : Option Grid :=
  (g.collapsePiece pick (g.pieceIdx y x)).map
    (fun f2 => { g with grid := g.grid.set y ((g.grid.getD y []).set x f2) })

/-- Row-major cell indices of the grid, as iterated by the sweep
comprehension in `main` (solver.py line 314). -/
def Grid.cellIndices (g : Grid) : List (Nat × Nat) :=
  (g.grid.enum.map (fun yr => yr.2.enum.map (fun xc => (yr.1, xc.1)))).flatten

/-- Collapse the listed cells in order, stopping at the first failure. -/
def sweepGo (pick : List Nat → Option Nat) : List (Nat × Nat) → Grid → Option Grid
  | [], g => some g
  | yx :: rest, g =>
    match g.collapseIdx pick yx.1 yx.2 with
    | none => none
    | some g2 => sweepGo pick rest g2

/-- One full sweep of the driver (solver.py line 314): collapse every cell
in row-major order. -/
def Grid.sweep (g : Grid) (pick : List Nat → Option Nat) : Option Grid :=
  sweepGo pick g.cellIndices g

/-- Outcome of the driver loop: normal exit with the final grid, the
`IndexError` escaping from a collapse on an empty narrowed domain, or the
fuel budget of the embedding running out before the loop exits (the source's
`while` loop carries no budget and need not terminate at all). -/
inductive LoopResult where
  | done : Grid → LoopResult
  | collapseError : LoopResult
  | outOfFuel : LoopResult
deriving DecidableEq

/-- The `while` loop of `main` (solver.py lines 313-316), with explicit fuel:
sweep while the solution space is bigger than 1 and differs from
`previous_permutations` — which the source initializes once, before the
loop, and never reassigns, so it is threaded through unchanged here. -/
def loopAux (pick : List Nat → Option Nat) : Nat → Nat → Grid → LoopResult
  | 0, _, _ => LoopResult.outOfFuel
  | Nat.succ fuel, previous_permutations, g =>
    if g.permutations > 1 ∧ previous_permutations ≠ g.permutations then
      match g.sweep pick with
      | none => LoopResult.collapseError
      | some g2 => loopAux pick fuel previous_permutations g2
    else LoopResult.done g

/-- The driver of `main` (solver.py lines 308-316): the previous count starts
one above the current one so the first test always enters the loop. -/
def runMain (pick : List Nat → Option Nat) (g : Grid) (fuel : Nat) : LoopResult :=
  loopAux pick fuel (g.permutations + 1) g

/-- Written from the specification's wording of collapse step 1:
`validDirections` collects each direction `d` whose neighbor at
`position.move(d)` satisfies `canconnect(d.opposite())`. -/
def specValidDirections (g : Grid) (position : Position) : Finset Direction :=
  (DIRECTIONS.filter (fun d => (g.piece (position.move d)).canconnect d.opposite)).toFinset

/-- Written from the specification's wording of collapse step 1:
`mandatoryDirections` collects each direction `d` whose neighbor satisfies
`mustconnect(d.opposite())`. -/
def specMandatoryDirections (g : Grid) (position : Position) : Finset Direction :=
  (DIRECTIONS.filter (fun d => (g.piece (position.move d)).mustconnect d.opposite)).toFinset

/-- The 1-by-1 grid holding a single "End" piece. -/
def end1Grid : Grid :=
  { grid := [[mkPiece EndShape { x := 0, y := 0 } 0]], x_max := 1, y_max := 1 }

/-- The 1-by-1 grid holding a single "Edge" piece (a grid on which collapse
succeeds, used to instantiate hypotheses at concrete inputs). -/
def edge1Grid : Grid :=
  { grid := [[mkPiece EdgeShape { x := 0, y := 0 } 0]], x_max := 1, y_max := 1 }

/-- The result of collapsing the single cell of `edge1Grid`. -/
def edge1Grid' : Grid := (edge1Grid.collapseIdx List.head? 0 0).getD edge1Grid

/-- The result of one full sweep over `edge1Grid`. -/
def edge1Sweep : Grid := (edge1Grid.sweep List.head?).getD edge1Grid


/-! ### List helper lemmas -/

lemma getD_set_eq {α : Type} (l : List α) (n : Nat) (a d : α) (h : n < l.length) :
    (l.set n a).getD n d = a := by
  induction l generalizing n with
  | nil => simp at h
  | cons b t ih =>
    cases n with
    | zero => simp
    | succ m => simpa using ih m (by simpa using h)

lemma getD_set_ne {α : Type} (l : List α) (m n : Nat) (a d : α) (h : m ≠ n) :
    (l.set m a).getD n d = l.getD n d := by
  induction l generalizing m n with
  | nil => simp
  | cons b t ih =>
    cases m with
    | zero =>
      cases n with
      | zero => exact absurd rfl h
      | succ k => simp
    | succ j =>
      cases n with
      | zero => simp
      | succ k => simpa using ih j k (fun hc => h (by simpa using hc))

lemma set_getD_self {α : Type} (l : List α) (n : Nat) (d : α) (h : n < l.length) :
    l.set n (l.getD n d) = l := by
  induction l generalizing n with
  | nil => simp at h
  | cons b t ih =>
    cases n with
    | zero => simp
    | succ m => simpa using ih m (by simpa using h)

lemma getD_map_lt {α β : Type} (f : α → β) (l : List α) (n : Nat) (d : β) (e : α)
    (h : n < l.length) : (l.map f).getD n d = f (l.getD n e) := by
  induction l generalizing n with
  | nil => simp at h
  | cons b t ih =>
    cases n with
    | zero => simp
    | succ m => simpa using ih m (by simpa using h)

lemma set_prod_le (l : List Nat) (n a : Nat) (h : a ≤ l.getD n 1) :
    (l.set n a).prod ≤ l.prod := by
  induction l generalizing n with
  | nil => simp
  | cons b t ih =>
    cases n with
    | zero =>
      simp only [List.set, List.prod_cons]
      exact Nat.mul_le_mul_right _ (by simpa using h)
    | succ m =>
      simp only [List.set, List.prod_cons]
      exact Nat.mul_le_mul_left _ (ih m (by simpa using h))

lemma foldl_mul_eq_prod {α : Type} (f : α → Nat) (l : List α) (init : Nat) :
    l.foldl (fun a e => a * f e) init = init * (l.map f).prod := by
  induction l generalizing init with
  | nil => simp
  | cons b t ih => simp [ih, Nat.mul_assoc]

/-! ### Permutations as a product -/

/-- Size of a piece's candidate domain. -/
def domSize (p : Piece) : Nat := p.possible_rotations.length

lemma permutations_eq_prod (g : Grid) :
    g.permutations = (g.grid.map (fun row => (row.map domSize).prod)).prod := by
  have h2 : g.permutations = 1 * (g.grid.flatten.map domSize).prod :=
    foldl_mul_eq_prod domSize g.grid.flatten 1
  rw [h2, Nat.one_mul, List.map_flatten, List.prod_flatten, List.map_map]
  rfl

/-! ### Shape of a successful collapse -/

lemma collapseIdx_elim {g g' : Grid} {pick : List Nat → Option Nat} {y x : Nat}
    (h : g.collapseIdx pick y x = some g') :
    ∃ r, pick (g.narrow (g.pieceIdx y x)) = some r ∧
      g' = { g with grid := g.grid.set y ((g.grid.getD y []).set x
        (Piece.set_rotation
          { g.pieceIdx y x with possible_rotations := g.narrow (g.pieceIdx y x) } r)) } := by
  unfold Grid.collapseIdx Grid.collapsePiece at h
  rw [Option.map_map] at h
  rcases Option.map_eq_some'.mp h with ⟨r, hr, hg⟩
  exact ⟨r, hr, hg.symm⟩

lemma narrow_sub (g : Grid) (focus : Piece) :
    g.narrow focus ⊆ focus.possible_rotations :=
  List.filter_subset' _

lemma narrow_len_le (g : Grid) (focus : Piece) :
    (g.narrow focus).length ≤ focus.possible_rotations.length :=
  List.length_filter_le _ _

lemma collapseIdx_grid_shape {g g' : Grid} {pick : List Nat → Option Nat} {y x : Nat}
    (h : g.collapseIdx pick y x = some g') :
    g'.grid.length = g.grid.length ∧
      ∀ i, (g'.grid.getD i []).length = (g.grid.getD i []).length := by
  rcases collapseIdx_elim h with ⟨r, _, hg⟩
  subst hg
  refine ⟨by simp, fun i => ?_⟩
  by_cases hi : y = i
  · subst hi
    by_cases hy : y < g.grid.length
    · rw [getD_set_eq _ _ _ _ (by simpa using hy)]
      simp
    · rw [List.set_eq_of_length_le (by omega)]
  · rw [getD_set_ne _ _ _ _ _ hi]

lemma collapseIdx_domain_sub {g g' : Grid} {pick : List Nat → Option Nat} {y x : Nat}
    (h : g.collapseIdx pick y x = some g') (i j : Nat) :
    (g'.pieceIdx i j).possible_rotations ⊆ (g.pieceIdx i j).possible_rotations := by
  rcases collapseIdx_elim h with ⟨r, _, hg⟩
  subst hg
  unfold Grid.pieceIdx
  by_cases hi : y = i
  · subst hi
    by_cases hy : y < g.grid.length
    · rw [getD_set_eq _ _ _ _ (by simpa using hy)]
      by_cases hj : x = j
      · subst hj
        by_cases hx : x < (g.grid.getD y []).length
        · rw [getD_set_eq _ _ _ _ (by simpa using hx)]
          simpa [Piece.set_rotation, Grid.pieceIdx] using narrow_sub g (g.pieceIdx y x)
        · rw [List.set_eq_of_length_le (by omega)]
          exact fun a ha => ha
      · rw [getD_set_ne _ _ _ _ _ hj]
        exact fun a ha => ha
    · rw [List.set_eq_of_length_le (by omega)]
      exact fun a ha => ha
  · rw [getD_set_ne _ _ _ _ _ hi]
    exact fun a ha => ha

lemma collapseIdx_perms_le {g g' : Grid} {pick : List Nat → Option Nat} {y x : Nat}
    (h : g.collapseIdx pick y x = some g') :
    g'.permutations ≤ g.permutations := by
  rcases collapseIdx_elim h with ⟨r, _, hg⟩
  subst hg
  rw [permutations_eq_prod, permutations_eq_prod]
  simp only
  rw [List.map_set]
  by_cases hy : y < g.grid.length
  · apply set_prod_le
    rw [getD_map_lt _ _ _ _ [] hy]
    rw [List.map_set]
    by_cases hx : x < (g.grid.getD y []).length
    · apply set_prod_le
      rw [getD_map_lt _ _ _ _ dummyPiece hx]
      simpa [Piece.set_rotation, domSize, Grid.pieceIdx] using narrow_len_le g (g.pieceIdx y x)
    · rw [List.set_eq_of_length_le (by simpa using Nat.le_of_not_lt hx)]
  · rw [List.set_eq_of_length_le (by simpa using Nat.le_of_not_lt hy)]

lemma sweepGo_perms_le (pick : List Nat → Option Nat) :
    ∀ (l : List (Nat × Nat)) (g g' : Grid), sweepGo pick l g = some g' →
      g'.permutations ≤ g.permutations := by
  intro l
  induction l with
  | nil => intro g g' h; cases h; exact Nat.le_refl _
  | cons yx rest ih =>
    intro g g' h
    unfold sweepGo at h
    cases hc : g.collapseIdx pick yx.1 yx.2 with
    | none => rw [hc] at h; cases h
    | some g2 =>
      rw [hc] at h
      exact Nat.le_trans (ih g2 g' h) (collapseIdx_perms_le hc)

lemma sweep_perms_le {g g' : Grid} {pick : List Nat → Option Nat}
    (h : g.sweep pick = some g') : g'.permutations ≤ g.permutations :=
  sweepGo_perms_le pick g.cellIndices g g' h

/-! ### Exits of the driver loop -/

/-- The 2-by-2 grid of "End" pieces, written out as `gridInit` builds it. -/
def end22Grid : Grid :=
  { grid :=
      [[mkPiece EndShape { x := 0, y := 0 } 0, mkPiece EndShape { x := 1, y := 0 } 0],
       [mkPiece EndShape { x := 0, y := 1 } 0, mkPiece EndShape { x := 1, y := 1 } 0]],
    x_max := 2, y_max := 2 }

/-- The state of `end22Grid` after its first sweep: each corner "End" keeps
the two rotations pointing at its in-grid neighbours, and a further sweep
reproduces this grid exactly. -/
def end22Stable : Grid := (end22Grid.sweep List.head?).getD end22Grid

lemma loopAux_done_perms_le (pick : List Nat → Option Nat) :
    ∀ (fuel previous : Nat) (g g' : Grid), g.permutations < previous →
      loopAux pick fuel previous g = LoopResult.done g' → g'.permutations ≤ 1 := by
  intro fuel
  induction fuel with
  | zero => intro previous g g' hlt h; cases h
  | succ f ih =>
    intro previous g g' hlt h
    unfold loopAux at h
    by_cases hc : g.permutations > 1 ∧ previous ≠ g.permutations
    · rw [if_pos hc] at h
      cases hs : g.sweep pick with
      | none => rw [hs] at h; cases h
      | some g2 =>
        rw [hs] at h
        have hle : g2.permutations ≤ g.permutations := sweep_perms_le hs
        exact ih previous g2 g' (by omega) h
    · rw [if_neg hc] at h
      cases h
      rcases Nat.lt_or_ge 1 g.permutations with h1 | h1
      · exact absurd ⟨h1, by omega⟩ hc
      · exact h1

lemma loopAux_stuck (pick : List Nat → Option Nat) (previous : Nat) (gs : Grid)
    (hsw : gs.sweep pick = some gs) (hp : gs.permutations > 1)
    (hne : previous ≠ gs.permutations) :
    ∀ fuel, loopAux pick fuel previous gs = LoopResult.outOfFuel := by
  intro fuel
  induction fuel with
  | zero => rfl
  | succ f ih =>
    unfold loopAux
    rw [if_pos ⟨hp, hne⟩, hsw]
    exact ih

lemma end22_never_terminates (fuel : Nat) :
    runMain List.head? end22Grid fuel = LoopResult.outOfFuel := by
  cases fuel with
  | zero => rfl
  | succ f =>
    unfold runMain loopAux
    rw [if_pos (by decide),
      show end22Grid.sweep List.head? = some end22Stable from by decide]
    exact loopAux_stuck List.head? (end22Grid.permutations + 1) end22Stable
      (by decide) (by decide) (by decide) f

/-- C1 counterexample: the driver loop does not stop on a zero-change sweep.
On the constructible 2-by-2 all-"End" grid the first sweep narrows every
domain to 2 rotations and every later sweep reproduces the grid unchanged
with `permutations = 16`, yet the loop — whose `previous_permutations` is
never reassigned in the source — still exhausts a fuel of
`permutations + 2` sweeps (it exhausts any fuel, by the amended theorem). -/
theorem end22_driver_out_of_fuel :
    gridInit [["End", "End"], ["End", "End"]] = some end22Grid ∧
      runMain List.head? end22Grid (end22Grid.permutations + 2) =
        LoopResult.outOfFuel :=
  ⟨by decide, end22_never_terminates (end22Grid.permutations + 2)⟩

/-- C1 amended: the driver loop has no zero-change exit, because
`previous_permutations` is set once before the loop and never reassigned:
whenever the loop exits normally, `solutionSpaceSize` has reached 1 (the
other exit is the collapse error), and the loop need not terminate at all —
on the 2-by-2 all-"End" grid, whose sweeps reach a fixed point with
`solutionSpaceSize = 16`, it exhausts every fuel bound. -/
theorem driver_loop_exits_only_at_one (pick : List Nat → Option Nat)
    (g g' : Grid) (fuel : Nat) :
    (runMain pick g fuel = LoopResult.done g' → g'.permutations ≤ 1) ∧
      runMain List.head? end22Grid fuel = LoopResult.outOfFuel :=
  ⟨fun h => loopAux_done_perms_le pick fuel (g.permutations + 1) g g'
      (by omega) h,
   end22_never_terminates fuel⟩

/-- C1 witness: the amended statement evaluated at concrete inputs — the
1-by-1 "Edge" grid exits immediately with `permutations = 1`, and the
2-by-2 "End" grid exhausts a fuel of 3 sweeps. -/
theorem driver_loop_exits_only_at_one_witness :
    edge1Grid.permutations ≤ 1 ∧
      runMain List.head? end22Grid 3 = LoopResult.outOfFuel :=
  ⟨(driver_loop_exits_only_at_one List.head? edge1Grid edge1Grid 1).1 (by decide),
   (driver_loop_exits_only_at_one List.head? edge1Grid edge1Grid 3).2⟩

/-- C2 counterexample: on the 1-by-1 "End" grid the driver does not
terminate cleanly with the domain at full size — the very first collapse
narrows the domain to the empty list and the random commit raises, so the
run ends in `collapseError` (here with `random.choice` modelled by
`List.head?`, which like `choice` fails exactly on the empty list). -/
theorem end_grid_driver_errors :
    gridInit [["End"]] = some end1Grid ∧
      runMain List.head? end1Grid 6 = LoopResult.collapseError := by decide

/-- C2 amended: running the driver loop on a 1-by-1 grid containing a single
"End" piece raises an error during the first sweep, for every model of
`random.choice` (any `pick` failing on the empty list) and any positive
fuel: every rotation of the "End" piece points into a sentinel that accepts
nothing, so the narrowed domain is empty, `choice` raises, and neither the
zero-change exit nor a full-size domain is reached. -/
theorem end_grid_first_sweep_fails (pick : List Nat → Option Nat) (g : Grid) (fuel : Nat)
    (hg : gridInit [["End"]] = some g)
    (hpick : pick [] = none)
    (hfuel : 1 ≤ fuel) :
    runMain pick g fuel = LoopResult.collapseError := by
  rw [show gridInit [["End"]] = some end1Grid from by decide] at hg
  have hg2 : end1Grid = g := Option.some.inj hg
  subst hg2
  obtain ⟨f, rfl⟩ : ∃ f, fuel = f + 1 := ⟨fuel - 1, by omega⟩
  have hnarrow : end1Grid.narrow (end1Grid.pieceIdx 0 0) = [] := by decide
  have hcol : end1Grid.collapseIdx pick 0 0 = none := by
    unfold Grid.collapseIdx Grid.collapsePiece
    rw [hnarrow, hpick]
    rfl
  have hsweep : end1Grid.sweep pick = none := by
    unfold Grid.sweep
    rw [show end1Grid.cellIndices = [(0, 0)] from by decide]
    unfold sweepGo
    rw [hcol]
  unfold runMain loopAux
  rw [if_pos (by decide), hsweep]

/-- C2 witness: the amended statement evaluated on the concrete grid, with
`List.head?` as the choice model and one unit of fuel. -/
theorem end_grid_first_sweep_fails_witness :
    runMain List.head? end1Grid 1 = LoopResult.collapseError :=
  end_grid_first_sweep_fails List.head? end1Grid 1 (by decide) rfl (by decide)

/-- C4: after every successful collapse each piece's domain is a subset of
its prior value, and consequently `solutionSpaceSize` never increases across
a full sweep, for any grid, any cell and any choice function. -/
theorem collapse_domains_shrink (pick : List Nat → Option Nat) (g g' h h' : Grid)
    (y x i j : Nat) :
    (g.collapseIdx pick y x = some g' →
      (g'.pieceIdx i j).possible_rotations ⊆ (g.pieceIdx i j).possible_rotations) ∧
    (h.sweep pick = some h' → h'.permutations ≤ h.permutations) :=
  ⟨fun hc => collapseIdx_domain_sub hc i j, fun hs => sweep_perms_le hs⟩

/-- C4 witness: the shrink properties evaluated on the concrete 1-by-1
"Edge" grid, where both collapse and the sweep succeed. -/
theorem collapse_domains_shrink_witness :
    ((edge1Grid'.pieceIdx 0 0).possible_rotations ⊆
      (edge1Grid.pieceIdx 0 0).possible_rotations) ∧
      edge1Sweep.permutations ≤ edge1Grid.permutations :=
  ⟨(collapse_domains_shrink List.head? edge1Grid edge1Grid' edge1Grid edge1Sweep
      0 0 0 0).1 (by decide),
   (collapse_domains_shrink List.head? edge1Grid edge1Grid' edge1Grid edge1Sweep
      0 0 0 0).2 (by decide)⟩

/-- C5: for every out-of-bounds position the returned sentinel piece has an
empty connection set and neither accepts nor requires a connection in any
direction. -/
theorem sentinel_never_connects (g : Grid) (position : Position) (d : Direction)
    (h : g.ingrid position = false) :
    (g.piece position).connections = ∅ ∧
      (g.piece position).canconnect d = false ∧
      (g.piece position).mustconnect d = false := by
  unfold Grid.piece
  rw [h]
  exact ⟨rfl, rfl, rfl⟩

/-- C5 witness: the sentinel properties evaluated just left of the 1-by-1
"End" grid, in direction `LEFT`. -/
theorem sentinel_never_connects_witness :
    (end1Grid.piece { x := -1, y := 0 }).connections = ∅ ∧
      (end1Grid.piece { x := -1, y := 0 }).canconnect LEFT = false ∧
      (end1Grid.piece { x := -1, y := 0 }).mustconnect LEFT = false :=
  sentinel_never_connects end1Grid { x := -1, y := 0 } LEFT (by decide)

/-! ### The accumulated direction sets agree with the spec wording -/

lemma mem_foldl_insert (l : List (Direction × Piece)) (p : Direction × Piece → Bool)
    (s0 : Finset Direction) (d : Direction) :
    (d ∈ l.foldl (fun s dn => if p dn then insert dn.1 s else s) s0) ↔
      d ∈ s0 ∨ ∃ dn ∈ l, p dn = true ∧ dn.1 = d := by
  induction l generalizing s0 with
  | nil => simp
  | cons a t ih =>
    cases hp : p a with
    | true =>
      simp only [List.foldl_cons, hp, if_true, ih, Finset.mem_insert, List.mem_cons]
      constructor
      · rintro ((rfl | hs) | hrest)
        · exact Or.inr ⟨a, Or.inl rfl, hp, rfl⟩
        · exact Or.inl hs
        · rcases hrest with ⟨dn, hdn, hpd, rfl⟩
          exact Or.inr ⟨dn, Or.inr hdn, hpd, rfl⟩
      · rintro (hs | ⟨dn, (rfl | hdn), _, rfl⟩)
        · exact Or.inl (Or.inr hs)
        · exact Or.inl (Or.inl rfl)
        · exact Or.inr ⟨dn, hdn, by assumption, rfl⟩
    | false =>
      simp only [List.foldl_cons, hp, if_false, ih, List.mem_cons]
      constructor
      · rintro (hs | ⟨dn, hdn, hpd, rfl⟩)
        · exact Or.inl hs
        · exact Or.inr ⟨dn, Or.inr hdn, hpd, rfl⟩
      · rintro (hs | ⟨dn, (rfl | hdn), hpd, rfl⟩)
        · exact Or.inl hs
        · rw [hp] at hpd; cases hpd
        · exact Or.inr ⟨dn, hdn, hpd, rfl⟩

lemma validDirections_eq_spec (g : Grid) (position : Position) :
    g.validDirections position = specValidDirections g position := by
  ext d
  rw [Grid.validDirections, mem_foldl_insert]
  simp only [Finset.not_mem_empty, false_or, specValidDirections, List.mem_toFinset,
    List.mem_filter, Grid.neighbours, List.mem_map]
  constructor
  · rintro ⟨dn, ⟨d0, hd0, rfl⟩, hp, rfl⟩
    exact ⟨hd0, hp⟩
  · rintro ⟨hd, hp⟩
    exact ⟨(d, g.piece (position.move d)), ⟨d, hd, rfl⟩, hp, rfl⟩

lemma mandatoryDirections_eq_spec (g : Grid) (position : Position) :
    g.mandatoryDirections position = specMandatoryDirections g position := by
  ext d
  rw [Grid.mandatoryDirections, mem_foldl_insert]
  simp only [Finset.not_mem_empty, false_or, specMandatoryDirections, List.mem_toFinset,
    List.mem_filter, Grid.neighbours, List.mem_map]
  constructor
  · rintro ⟨dn, ⟨d0, hd0, rfl⟩, hp, rfl⟩
    exact ⟨hd0, hp⟩
  · rintro ⟨hd, hp⟩
    exact ⟨(d, g.piece (position.move d)), ⟨d, hd, rfl⟩, hp, rfl⟩

lemma collapseIdx_pieceIdx_eq {g g' : Grid} {pick : List Nat → Option Nat} {y x : Nat}
    (h : g.collapseIdx pick y x = some g')
    (hy : y < g.grid.length) (hx : x < (g.grid.getD y []).length) :
    ∃ r, pick (g.narrow (g.pieceIdx y x)) = some r ∧
      g'.pieceIdx y x = Piece.set_rotation
        { g.pieceIdx y x with possible_rotations := g.narrow (g.pieceIdx y x) } r := by
  rcases collapseIdx_elim h with ⟨r, hr, hg⟩
  subst hg
  refine ⟨r, hr, ?_⟩
  unfold Grid.pieceIdx
  rw [getD_set_eq _ _ _ _ (by simpa using hy), getD_set_eq _ _ _ _ hx]

/-- C3: after a successful collapse of an in-bounds cell, the new domain is
exactly the set of prior rotations whose rotated connection set is contained
in the spec's `validDirections` and contains the spec's
`mandatoryDirections`. -/
theorem collapse_narrowing_characterized (pick : List Nat → Option Nat) (g g' : Grid)
    (y x r : Nat) (h : g.collapseIdx pick y x = some g')
    (hy : y < g.grid.length) (hx : x < (g.grid.getD y []).length) :
    r ∈ (g'.pieceIdx y x).possible_rotations ↔
      r ∈ (g.pieceIdx y x).possible_rotations ∧
        (g.pieceIdx y x).shape.rotate r ⊆
          specValidDirections g (g.pieceIdx y x).position ∧
        specMandatoryDirections g (g.pieceIdx y x).position ⊆
          (g.pieceIdx y x).shape.rotate r := by
  rcases collapseIdx_pieceIdx_eq h hy hx with ⟨r0, _, hEq⟩
  rw [hEq]
  show r ∈ g.narrow (g.pieceIdx y x) ↔ _
  rw [Grid.narrow, List.mem_filter]
  simp only [Bool.and_eq_true, decide_eq_true_eq, validDirections_eq_spec,
    mandatoryDirections_eq_spec, and_assoc]

/-- C3 witness: the characterization evaluated on the 1-by-1 "Edge" grid at
its single cell, for rotation 0. -/
theorem collapse_narrowing_characterized_witness :
    0 ∈ (edge1Grid'.pieceIdx 0 0).possible_rotations ↔
      0 ∈ (edge1Grid.pieceIdx 0 0).possible_rotations ∧
        (edge1Grid.pieceIdx 0 0).shape.rotate 0 ⊆
          specValidDirections edge1Grid (edge1Grid.pieceIdx 0 0).position ∧
        specMandatoryDirections edge1Grid (edge1Grid.pieceIdx 0 0).position ⊆
          (edge1Grid.pieceIdx 0 0).shape.rotate 0 :=
  collapse_narrowing_characterized List.head? edge1Grid edge1Grid' 0 0 0
    (by decide) (by decide) (by decide)

lemma head?_mem (l : List Nat) (r : Nat) (h : l.head? = some r) : r ∈ l := by
  cases l with
  | nil => cases h
  | cons a t =>
    simp only [List.head?_cons, Option.some.injEq] at h
    subst h
    exact List.mem_cons_self a t

/-- C6: a successful collapse of an in-bounds cell changes only that cell:
the updated piece keeps its shape and position, its domain is the full
narrowed set (not a singleton cut down to the drawn value), its rotation is
an element of that narrowed domain, its cached connections are recomputed
for the new rotation, and every other cell of the grid is untouched. -/
theorem collapse_frame (pick : List Nat → Option Nat) (g g' : Grid) (y x : Nat)
    (hpick : ∀ (l : List Nat) (r : Nat), pick l = some r → r ∈ l)
    (hdom : ∀ s ∈ (g.pieceIdx y x).possible_rotations, s < 4)
    (h : g.collapseIdx pick y x = some g')
    (hy : y < g.grid.length) (hx : x < (g.grid.getD y []).length) (i j : Nat)
    (hij : ¬(i = y ∧ j = x)) :
    (g'.pieceIdx y x).shape = (g.pieceIdx y x).shape ∧
      (g'.pieceIdx y x).position = (g.pieceIdx y x).position ∧
      (g'.pieceIdx y x).possible_rotations = g.narrow (g.pieceIdx y x) ∧
      (g'.pieceIdx y x).rotation ∈ (g'.pieceIdx y x).possible_rotations ∧
      (g'.pieceIdx y x).connections =
        (g'.pieceIdx y x).shape.rotate (g'.pieceIdx y x).rotation ∧
      g'.pieceIdx i j = g.pieceIdx i j := by
  rcases collapseIdx_pieceIdx_eq h hy hx with ⟨r0, hr0, hEq⟩
  have hr0mem : r0 ∈ g.narrow (g.pieceIdx y x) := hpick _ _ hr0
  have hr0lt : r0 < 4 := hdom r0 (narrow_sub g (g.pieceIdx y x) hr0mem)
  have hmod : r0 % 4 = r0 := Nat.mod_eq_of_lt hr0lt
  refine ⟨by rw [hEq]; rfl, by rw [hEq]; rfl, by rw [hEq]; rfl, ?_, ?_, ?_⟩
  · rw [hEq]
    show r0 % 4 ∈ g.narrow (g.pieceIdx y x)
    rw [hmod]
    exact hr0mem
  · rw [hEq]
    rfl
  · rcases collapseIdx_elim h with ⟨r1, _, hg⟩
    subst hg
    unfold Grid.pieceIdx
    by_cases hiy : y = i
    · subst hiy
      rw [getD_set_eq _ _ _ _ (by simpa using hy)]
      have hjx : x ≠ j := fun hc => hij ⟨rfl, hc.symm⟩
      rw [getD_set_ne _ _ _ _ _ hjx]
    · rw [getD_set_ne _ _ _ _ _ hiy]

/-- C6 witness: the frame property evaluated on the 1-by-1 "Edge" grid at
its single cell, with the untouched-cell conclusion read at index (1,1). -/
theorem collapse_frame_witness :
    (edge1Grid'.pieceIdx 0 0).shape = (edge1Grid.pieceIdx 0 0).shape ∧
      (edge1Grid'.pieceIdx 0 0).position = (edge1Grid.pieceIdx 0 0).position ∧
      (edge1Grid'.pieceIdx 0 0).possible_rotations =
        edge1Grid.narrow (edge1Grid.pieceIdx 0 0) ∧
      (edge1Grid'.pieceIdx 0 0).rotation ∈ (edge1Grid'.pieceIdx 0 0).possible_rotations ∧
      (edge1Grid'.pieceIdx 0 0).connections =
        (edge1Grid'.pieceIdx 0 0).shape.rotate ((edge1Grid'.pieceIdx 0 0).rotation) ∧
      edge1Grid'.pieceIdx 1 1 = edge1Grid.pieceIdx 1 1 :=
  collapse_frame List.head? edge1Grid edge1Grid' 0 0 head?_mem (by decide)
    (by decide) (by decide) (by decide) 1 1 (by decide)

/-! ### The connection-cache invariant (C8) -/

/-- The spec's piece invariant: the cached connection set equals the shape
rotated by the current rotation index. -/
def ConnInv (p : Piece) : Prop := p.connections = p.shape.rotate p.rotation

lemma getD_mem_of_lt {α : Type} (l : List α) (n : Nat) (d : α) (h : n < l.length) :
    l.getD n d ∈ l := by
  induction l generalizing n with
  | nil => simp at h
  | cons a t ih =>
    cases n with
    | zero => simp
    | succ m =>
      rw [List.getD_cons_succ]
      exact List.mem_cons_of_mem a (ih m (by simpa using h))

lemma rotate_zero_self (s : Shape) : s.rotate 0 = s.connections := by
  unfold Shape.rotate
  rw [show (fun connection : Direction => connection.rotate 0) = id from funext fun c => rfl]
  exact Finset.image_id

lemma mkPiece_conninv (s : Shape) (pos : Position) : ConnInv (mkPiece s pos 0) := by
  show s.connections = Shape.rotate s 0
  rw [rotate_zero_self]

lemma set_rotation_conninv (p : Piece) (r : Nat) : ConnInv (p.set_rotation r) := rfl

lemma initRow_conninv : ∀ (y x : Nat) (row : List String) (ps : List Piece),
    initRow y x row = some ps → ∀ q ∈ ps, ConnInv q := by
  intro y x row
  induction row generalizing x with
  | nil =>
    intro ps h q hq
    cases h
    simp at hq
  | cons c rest ih =>
    intro ps h q hq
    unfold initRow at h
    cases hs : SHAPES c with
    | none => rw [hs] at h; cases h
    | some s =>
      cases hr : initRow y (x + 1) rest with
      | none => rw [hs, hr] at h; cases h
      | some ps2 =>
        rw [hs, hr] at h
        cases h
        rcases List.mem_cons.mp hq with rfl | hq2
        · exact mkPiece_conninv s _
        · exact ih (x + 1) ps2 hr q hq2

lemma initRows_conninv : ∀ (y : Nat) (rows : List (List String)) (pss : List (List Piece)),
    initRows y rows = some pss → ∀ ps ∈ pss, ∀ q ∈ ps, ConnInv q := by
  intro y rows
  induction rows generalizing y with
  | nil =>
    intro pss h ps hps q hq
    cases h
    simp at hps
  | cons row rest ih =>
    intro pss h ps hps q hq
    unfold initRows at h
    cases hr : initRow y 0 row with
    | none => rw [hr] at h; cases h
    | some ps1 =>
      cases hrs : initRows (y + 1) rest with
      | none => rw [hr, hrs] at h; cases h
      | some pss2 =>
        rw [hr, hrs] at h
        cases h
        rcases List.mem_cons.mp hps with rfl | hps2
        · exact initRow_conninv y 0 row ps hr q hq
        · exact ih (y + 1) pss2 hrs ps hps2 q hq

/-- C8: the cached-connection invariant `connections == shape.rotate(rotation)`
holds for every piece of a freshly constructed grid, is re-established by
every `set_rotation`, and is preserved across every successful collapse. -/
theorem connections_cache_invariant (d : List (List String)) (g g0 g' : Grid)
    (p : Piece) (r : Nat) (pick : List Nat → Option Nat) (y x : Nat) :
    (gridInit d = some g → ∀ row ∈ g.grid, ∀ q ∈ row, ConnInv q) ∧
      ConnInv (p.set_rotation r) ∧
      (g0.collapseIdx pick y x = some g' →
        (∀ row ∈ g0.grid, ∀ q ∈ row, ConnInv q) →
        ∀ row ∈ g'.grid, ∀ q ∈ row, ConnInv q) := by
  refine ⟨?_, set_rotation_conninv p r, ?_⟩
  · intro hg row hrow q hq
    unfold gridInit at hg
    cases hr : initRows 0 d with
    | none => rw [hr] at hg; cases hg
    | some rows =>
      rw [hr] at hg
      dsimp only at hg
      cases hh : rows.head? with
      | none => rw [hh] at hg; cases hg
      | some row0 =>
        rw [hh] at hg
        cases hg
        exact initRows_conninv 0 d rows hr row hrow q hq
  · intro hc hinv row hrow q hq
    rcases collapseIdx_elim hc with ⟨r1, _, hg⟩
    subst hg
    rcases List.mem_or_eq_of_mem_set hrow with hrow0 | rfl
    · exact hinv row hrow0 q hq
    · rcases List.mem_or_eq_of_mem_set hq with hq0 | rfl
      · by_cases hy : y < g0.grid.length
        · exact hinv _ (getD_mem_of_lt _ _ _ hy) q hq0
        · rw [List.getD_eq_default _ _ (by omega)] at hq0
          simp at hq0
      · exact set_rotation_conninv _ r1

/-- C8 witness: the invariant read off a concrete construction, a concrete
`set_rotation`, and a concrete successful collapse. -/
theorem connections_cache_invariant_witness :
    ConnInv (end1Grid.pieceIdx 0 0) ∧
      ConnInv (dummyPiece.set_rotation 3) ∧
      ConnInv (edge1Grid'.pieceIdx 0 0) := by
  have h1 := (connections_cache_invariant [["End"]] end1Grid edge1Grid edge1Grid'
    dummyPiece 3 List.head? 0 0).1 (by decide)
  have h3 := (connections_cache_invariant [["End"]] end1Grid edge1Grid edge1Grid'
    dummyPiece 3 List.head? 0 0).2.2 (by decide)
  refine ⟨?_, (connections_cache_invariant [["End"]] end1Grid edge1Grid edge1Grid'
    dummyPiece 3 List.head? 0 0).2.1, ?_⟩
  · exact h1 [mkPiece EndShape { x := 0, y := 0 } 0] (by decide)
      (mkPiece EndShape { x := 0, y := 0 } 0) (by decide)
  · refine h3 (fun row hrow q hq => ?_) (edge1Grid'.grid.getD 0 [])
      (getD_mem_of_lt edge1Grid'.grid 0 [] (by decide))
      ((edge1Grid'.grid.getD 0 []).getD 0 dummyPiece)
      (getD_mem_of_lt (edge1Grid'.grid.getD 0 []) 0 dummyPiece (by decide))
    have hrow2 : row = [mkPiece EdgeShape { x := 0, y := 0 } 0] := by
      simpa [edge1Grid] using hrow
    subst hrow2
    have hq2 : q = mkPiece EdgeShape { x := 0, y := 0 } 0 := by simpa using hq
    subst hq2
    exact mkPiece_conninv _ _

/-- The deduplication pass as direct recursion: keep a rotation when its
connection set is not in the seen list, threading the seen list. -/
def dedupGo (s : Shape) : List Nat → List (Finset Direction) → List Nat
  | [], _ => []
  | rot :: rest, seen =>
    if s.rotate rot ∈ seen then dedupGo s rest seen
    else rot :: dedupGo s rest (seen ++ [s.rotate rot])

lemma dedup_foldl_eq (s : Shape) : ∀ (l : List Nat) (cs : List (Finset Direction)) (vs : List Nat),
    (l.foldl (fun acc rotation => if s.rotate rotation ∈ acc.1 then acc
      else (acc.1 ++ [s.rotate rotation], acc.2 ++ [rotation])) (cs, vs)).2 =
      vs ++ dedupGo s l cs := by
  intro l
  induction l with
  | nil => intro cs vs; simp [dedupGo]
  | cons a t ih =>
    intro cs vs
    simp only [List.foldl_cons, dedupGo]
    by_cases h : s.rotate a ∈ cs
    · simp only [h, if_true]
      rw [ih cs vs]
    · simp only [h, if_false]
      rw [ih (cs ++ [s.rotate a]) (vs ++ [a])]
      simp

lemma dedupGo_mem (s : Shape) : ∀ (m k : Nat) (seen : List (Finset Direction)),
    (∀ c, c ∈ seen ↔ ∃ q, q < k ∧ s.rotate q = c) →
    ∀ r, (r ∈ dedupGo s (List.range' k m) seen ↔
      (k ≤ r ∧ r < k + m) ∧ ∀ q, q < r → s.rotate q ≠ s.rotate r) := by
  intro m
  induction m with
  | zero =>
    intro k seen hseen r
    simp [List.range', dedupGo]
  | succ m ih =>
    intro k seen hseen r
    have hr : List.range' k (m + 1) = k :: List.range' (k + 1) m := by
      rw [List.range'_succ]
    rw [hr]
    unfold dedupGo
    by_cases hmem : s.rotate k ∈ seen
    · rw [if_pos hmem]
      have hseen2 : ∀ c, c ∈ seen ↔ ∃ q, q < k + 1 ∧ s.rotate q = c := by
        intro c
        constructor
        · intro hc
          rcases (hseen c).mp hc with ⟨q, hq, he⟩
          exact ⟨q, by omega, he⟩
        · rintro ⟨q, hq, he⟩
          rcases Nat.lt_or_ge q k with hqk | hqk
          · exact (hseen c).mpr ⟨q, hqk, he⟩
          · have : q = k := by omega
            subst this
            rw [← he]
            exact hmem
      rw [ih (k + 1) seen hseen2 r]
      constructor
      · rintro ⟨⟨h1, h2⟩, h3⟩
        exact ⟨⟨by omega, by omega⟩, h3⟩
      · rintro ⟨⟨h1, h2⟩, h3⟩
        rcases Nat.lt_or_ge k r with hkr | hkr
        · exact ⟨⟨by omega, by omega⟩, h3⟩
        · have : r = k := by omega
          subst this
          rcases (hseen (s.rotate r)).mp hmem with ⟨q, hq, he⟩
          exact absurd he (h3 q hq)
    · rw [if_neg hmem]
      have hseen2 : ∀ c, c ∈ seen ++ [s.rotate k] ↔ ∃ q, q < k + 1 ∧ s.rotate q = c := by
        intro c
        rw [List.mem_append, List.mem_singleton]
        constructor
        · rintro (hc | rfl)
          · rcases (hseen c).mp hc with ⟨q, hq, he⟩
            exact ⟨q, by omega, he⟩
          · exact ⟨k, by omega, rfl⟩
        · rintro ⟨q, hq, he⟩
          rcases Nat.lt_or_ge q k with hqk | hqk
          · exact Or.inl ((hseen c).mpr ⟨q, hqk, he⟩)
          · have : q = k := by omega
            subst this
            exact Or.inr he.symm
      rw [List.mem_cons, ih (k + 1) (seen ++ [s.rotate k]) hseen2 r]
      constructor
      · rintro (rfl | ⟨⟨h1, h2⟩, h3⟩)
        · refine ⟨⟨by omega, by omega⟩, fun q hq he => ?_⟩
          exact hmem ((hseen (s.rotate r)).mpr ⟨q, hq, he⟩)
        · exact ⟨⟨by omega, by omega⟩, h3⟩
      · rintro ⟨⟨h1, h2⟩, h3⟩
        rcases Nat.lt_or_ge k r with hkr | hkr
        · exact Or.inr ⟨⟨by omega, by omega⟩, h3⟩
        · have : r = k := by omega
          subst this
          exact Or.inl rfl

lemma mkPiece_domain_mem (s : Shape) (pos : Position) (r : Nat) :
    r ∈ (mkPiece s pos 0).possible_rotations ↔
      r < 4 ∧ ∀ q, q < r → s.rotate q ≠ s.rotate r := by
  have h0 : (mkPiece s pos 0).possible_rotations =
      (List.foldl (fun acc rotation =>
        if s.rotate rotation ∈ acc.1 then acc
        else (acc.1 ++ [s.rotate rotation], acc.2 ++ [rotation]))
        (([] : List (Finset Direction)), ([] : List Nat)) [0, 1, 2, 3]).2 := rfl
  rw [h0, dedup_foldl_eq s [0, 1, 2, 3] [] []]
  have h1 : ([0, 1, 2, 3] : List Nat) = List.range' 0 4 := rfl
  rw [List.nil_append, h1, dedupGo_mem s 4 0 [] (by simp) r]
  constructor
  · rintro ⟨⟨h1, h2⟩, h3⟩
    exact ⟨by omega, h3⟩
  · rintro ⟨h1, h3⟩
    exact ⟨⟨by omega, by omega⟩, h3⟩

/-- C9: piece construction deduplicates the initial domain by rotational
symmetry — a rotation in 0..3 survives exactly when its rotated connection
set was not already produced by a smaller rotation — so "Straight" starts
with exactly 2 candidate rotations and "Corner", "Tee" and "End" with
exactly 4. -/
theorem domain_symmetry_dedup (s : Shape) (pos : Position) (r : Nat) :
    (r ∈ (mkPiece s pos 0).possible_rotations ↔
      r < 4 ∧ ∀ q, q < r → s.rotate q ≠ s.rotate r) ∧
    (mkPiece StraightShape pos 0).possible_rotations.length = 2 ∧
    (mkPiece CornerShape pos 0).possible_rotations.length = 4 ∧
    (mkPiece TeeShape pos 0).possible_rotations.length = 4 ∧
    (mkPiece EndShape pos 0).possible_rotations.length = 4 :=
  ⟨mkPiece_domain_mem s pos r, rfl, rfl, rfl, rfl⟩

/-- C10: rotating any direction four times is the same as rotating it zero
times, and negating a direction twice gives it back. -/
theorem direction_rotate_opposite_laws (d : Direction) :
    d.rotate 4 = d.rotate 0 ∧ d.opposite.opposite = d := by
  refine ⟨rfl, ?_⟩
  cases d with
  | mk x y => simp [Direction.opposite, mul_neg_one, neg_neg]

/-- C7 evidence: `Grid.__init__` accepts a description with rows of unequal
length — construction succeeds instead of failing fast, contradicting the
spec, whose intent the source's own comments announce (the rectangularity
"test" comments at lines 156-157 with no code behind them). -/
theorem nonrectangular_description_accepted :
    (gridInit [["End", "End"], ["End"]]).isSome = true := by decide
